import Mathlib

/-!
Shallow embedding of the client-side reminder scheduling and adherence
state machine of the medi-remainder repository (source file
src/lib/reminderService.ts, plus a modal component providing the
user-facing mark-as-taken / mark-as-missed handlers).

Modelling conventions:
* The module-level mutable globals of the source file
  (reminderCheckInterval, nextCheckTimeout, lastNotifiedReminders,
  autoMarkTimeouts) together with the external adherence_logs table are
  gathered in one explicit state record `Svc`, threaded through every
  operation.
* Timer handles created by setTimeout / setInterval are modelled as
  numeric ids; the fields pendingTimeouts / pendingIntervals model the
  runtime timer table (every timer created and neither fired nor
  cleared), while nextCheckTimeout / reminderCheckInterval model the
  module variables holding the most recently stored handle.
* Wall-clock reads (new Date()) are passed in explicitly: the current
  UTC calendar date (the date part of toISOString) and the current ISO
  timestamp as strings, the current local seconds and milliseconds as
  naturals.
* Fallible external calls (the supabase reads and writes) are modelled
  by boolean error flags in an environment record; a thrown exception
  or returned error makes the function take the catch / early-return
  path of the source, which leaves the state unchanged.
* Fire-and-forget side effects that leave this core (console logging,
  page-refresh and reminder callbacks, outbound alert emails) are not
  part of the state; the counters evalCount and sweepCount record how
  many times checkAndNotifyReminders and checkMissedMedications ran.
-/

/-- Adherence status values, from the AdherenceStatus union type. -/
inductive AdherenceStatus where
  | taken
  | missed
  | not_taken_auto
deriving DecidableEq, Repr, BEq

/-- One row of the adherence_logs table. -/
structure AdherenceLog where
  id : Nat
  medication_id : String
  user_id : String
  scheduled_time : String
  status : AdherenceStatus
  taken_at : Option String
deriving DecidableEq, Repr

/-- The reminder entry shape produced by fetchDueReminders
(interface MedicationWithSchedule). -/
structure MedicationWithSchedule where
  id : String
  medication_name : String
  dosage : String
  instructions : Option String
  reminder_time : String
deriving DecidableEq, Repr

/-- A row of the medications table (the columns this core reads). -/
structure Medication where
  id : String
  user_id : String
  medication_name : String
  dosage : String
  instructions : Option String
  active : Bool
deriving DecidableEq, Repr

/-- A row of the medication_schedules table (the columns this core reads). -/
structure Schedule where
  id : String
  medication_id : String
  reminder_time : String
  active : Bool
deriving DecidableEq, Repr

/-- The combined mutable state of the reminder service module: the
module-level globals, the runtime timer table, and the external
adherence_logs table. -/
structure Svc where
  db : List AdherenceLog
  autoMarkTimeouts : List String
  lastNotified : List (String × Nat)
  reminderCheckInterval : Option (Nat × Nat)
  nextCheckTimeout : Option (Nat × Nat)
  pendingTimeouts : List (Nat × Nat)
  pendingIntervals : List (Nat × Nat)
  evalCount : Nat
  sweepCount : Nat
  nextId : Nat
deriving DecidableEq, Repr

/-- The initial module state: empty maps and sets, no timers. -/
def initSvc : Svc :=
  { db := [], autoMarkTimeouts := [], lastNotified := [],
    reminderCheckInterval := none, nextCheckTimeout := none,
    pendingTimeouts := [], pendingIntervals := [],
    evalCount := 0, sweepCount := 0, nextId := 0 }

/-- AUTO_NOT_TAKEN_TIMEOUT_MS = 5 * 60 * 1000. -/
def AUTO_NOT_TAKEN_TIMEOUT_MS : Nat := 5 * 60 * 1000

/-- getReminderKey from the source: userId, medicationId and
reminderTime joined by colons. -/
def getReminderKey (userId medicationId reminderTime : String) : String :=
  userId ++ ":" ++ medicationId ++ ":" ++ reminderTime

/-- clearAutoMarkTimeout: cancel and remove the pending auto-mark timer
for the key, when present. -/
def clearAutoMarkTimeout (userId medicationId reminderTime : String)
    (st : Svc) : Svc :=
  { st with autoMarkTimeouts :=
      st.autoMarkTimeouts.filter (fun k =>
        k ≠ getReminderKey userId medicationId reminderTime) }

/-- Inputs of one recordAdherenceStatus call that come from the outside
world: the two clock reads and the outcome of the two database calls.
today is the UTC calendar date taken from toISOString at the moment of
the call; now is the full ISO timestamp used for taken_at; newId is the
id the insert would create. -/
structure RecordEnv where
  today : String
  now : String
  readError : Bool
  writeError : Bool
  newId : Nat
deriving DecidableEq, Repr

/-- getScheduledDateTime: the current UTC date joined with the
local-time reminder string by the letter T. -/
def getScheduledDateTime (today reminderTime : String) : String :=
  today ++ "T" ++ reminderTime

/-- The condition of the three eq filters of the adherence_logs select:
the row matches the (medication_id, user_id, scheduled_time) triple. -/
def matchesKey (medicationId userId scheduledTime : String)
    (l : AdherenceLog) : Bool :=
  l.medication_id == medicationId && l.user_id == userId &&
    l.scheduled_time == scheduledTime

/-- maybeSingle semantics of the client library: zero rows give none,
one row gives that row, more than one row is an error. -/
def maybeSingle (rows : List AdherenceLog) :
    Except Unit (Option AdherenceLog) :=
  match rows with
  | [] => Except.ok none
  | [l] => Except.ok (some l)
  | _ => Except.error ()

/-- The taken_at component of the upsert payload: the current timestamp
when the status being written is taken, null otherwise. -/
def payloadTakenAt (env : RecordEnv) (status : AdherenceStatus) :
    Option String :=
  if status = AdherenceStatus.taken then some env.now else none

/-- recordAdherenceStatus: look up the existing log for the triple
(medication, user, scheduled datetime computed at call time); on a read
error return unchanged; when skipIfCompleted is set and the found log
is already taken or missed, only cancel the auto-mark timer; otherwise
update the found row in place or insert a new row, then cancel the
auto-mark timer unless the status written was not_taken_auto. -/
def recordAdherenceStatus (env : RecordEnv)
    (userId medicationId reminderTime : String)
    (status : AdherenceStatus) (skipIfCompleted : Bool) (st : Svc) : Svc :=
  let scheduledDateTime := getScheduledDateTime env.today reminderTime
  if env.readError then st
  else
    match maybeSingle
        (st.db.filter (matchesKey medicationId userId scheduledDateTime)) with
    | Except.error _ => st
    | Except.ok existingLog =>
      if skipIfCompleted && existingLog.any
          (fun l => l.status == AdherenceStatus.taken ||
            l.status == AdherenceStatus.missed) then
        clearAutoMarkTimeout userId medicationId reminderTime st
      else
        let taken_at := payloadTakenAt env status
        if env.writeError then st
        else
          let db2 : List AdherenceLog :=
            match existingLog with
            | some l =>
              st.db.map (fun r =>
                if r.id = l.id then
                  { r with status := status, taken_at := taken_at }
                else r)
            | none =>
              st.db ++ [{ id := env.newId, medication_id := medicationId,
                          user_id := userId,
                          scheduled_time := scheduledDateTime,
                          status := status, taken_at := taken_at }]
          let st1 := { st with db := db2 }
          if status ≠ AdherenceStatus.not_taken_auto then
            clearAutoMarkTimeout userId medicationId reminderTime st1
          else st1

/-- handleMarkAsTaken from the reminder modal: cancel the auto-mark
timer, then record status taken. -/
def handleMarkAsTaken (env : RecordEnv) (userId : String)
    (medication : MedicationWithSchedule) (st : Svc) : Svc :=
  let st1 := clearAutoMarkTimeout userId medication.id
    medication.reminder_time st
  recordAdherenceStatus env userId medication.id medication.reminder_time
    AdherenceStatus.taken false st1

/-- handleMarkAsMissed from the reminder modal: cancel the auto-mark
timer, then record status missed. -/
def handleMarkAsMissed (env : RecordEnv) (userId : String)
    (medication : MedicationWithSchedule) (st : Svc) : Svc :=
  let st1 := clearAutoMarkTimeout userId medication.id
    medication.reminder_time st
  recordAdherenceStatus env userId medication.id medication.reminder_time
    AdherenceStatus.missed false st1

/-- The conceptual key of an adherence log row. -/
def adherenceKey (l : AdherenceLog) : String × String × String :=
  (l.medication_id, l.user_id, l.scheduled_time)

/-- At most one adherence row per (medication, user, scheduled time)
triple: all rows carry pairwise distinct keys. -/
def atMostOnePerKey (db : List AdherenceLog) : Prop :=
  db.Pairwise (fun a b => adherenceKey a ≠ adherenceKey b)

/-- Outcomes of the two fallible fetch steps of fetchDueReminders: a
returned error object or a thrown exception at either step. -/
structure FetchEnv where
  schedulesError : Bool
  medicationsError : Bool
deriving DecidableEq, Repr

/-- fetchDueReminders: select active schedules whose reminder_time
equals the current HH:MM, with their medication row joined by foreign
key; select the active medications of the user; keep only schedules
whose joined medication is among the user medications; return each as a
MedicationWithSchedule. Every failure degrades to the empty list. -/
def fetchDueReminders (env : FetchEnv) (meds : List Medication)
    (schedules : List Schedule) (userId currentTime : String) :
    List MedicationWithSchedule :=
  if env.schedulesError then []
  else
    let rows :=
      (schedules.filter (fun s =>
        s.active && s.reminder_time == currentTime)).map (fun s =>
          (s, meds.find? (fun m => m.id == s.medication_id)))
    if rows.isEmpty then []
    else if env.medicationsError then []
    else
      let userMedicationIds :=
        (meds.filter (fun m => m.user_id == userId && m.active)).map
          Medication.id
      rows.filterMap (fun sm =>
        match sm.2 with
        | some med =>
          if userMedicationIds.contains med.id then
            some { id := med.id, medication_name := med.medication_name,
                   dosage := med.dosage, instructions := med.instructions,
                   reminder_time := sm.1.reminder_time }
          else none
        | none => none)

/-- The reminder entry fetchDueReminders builds from a schedule row and
its joined medication row. -/
def entryOf (m : Medication) (s : Schedule) : MedicationWithSchedule :=
  { id := m.id, medication_name := m.medication_name, dosage := m.dosage,
    instructions := m.instructions, reminder_time := s.reminder_time }

/-- The notification dedup key of checkAndNotifyReminders: medication id
and reminder time-of-day joined by a dash. -/
def reminderDedupKey (r : MedicationWithSchedule) : String :=
  r.id ++ "-" ++ r.reminder_time

/-- scheduleAutoMarkNotTaken: cancel any pending auto-mark timer for the
key and arm a fresh 5-minute timer for it. -/
def scheduleAutoMarkNotTaken (userId : String)
    (medication : MedicationWithSchedule) (st : Svc) : Svc :=
  let key := getReminderKey userId medication.id medication.reminder_time
  { st with autoMarkTimeouts :=
      st.autoMarkTimeouts.filter (fun k => k ≠ key) ++ [key] }

/-- Entries of the dedup set still present at the given time: each key
is stored with its expiry instant (the time it was added plus 61
seconds) and the deletion timer removes it once that instant is
reached. -/
def expireNotified (now : Nat) (l : List (String × Nat)) :
    List (String × Nat) :=
  l.filter (fun e => now < e.2)

/-- One iteration of the due-reminder loop of checkAndNotifyReminders:
when the dedup key of the reminder is not in the set, add it with its
61-second expiry, arm the auto-mark timer, dispatch the notification
(recorded by appending the key to the fired list); otherwise do
nothing. -/
def notifyStep (userId : String) (now : Nat)
    (acc : Svc × List String) (r : MedicationWithSchedule) :
    Svc × List String :=
  let key := reminderDedupKey r
  if acc.1.lastNotified.any (fun e => e.1 == key) then acc
  else
    let st1 := { acc.1 with
      lastNotified := (key, now + 61) :: acc.1.lastNotified }
    (scheduleAutoMarkNotTaken userId r st1, acc.2 ++ [key])

/-- Inputs of one tick that come from the outside world: the current
time in seconds (for dedup-set bookkeeping), the local wall-clock
seconds and milliseconds fields, the HH:MM string produced by
getCurrentTimeString, and the fetch inputs. -/
structure TickInput where
  time : Nat
  sec : Nat
  ms : Nat
  currentTime : String
  fetchEnv : FetchEnv
  meds : List Medication
  schedules : List Schedule
deriving DecidableEq, Repr

/-- checkAndNotifyReminders: resolve the due reminders, then dispatch
each one at most once per dedup window; returns the new state and the
list of dedup keys actually dispatched this call. The pending dedup
deletions that have come due by this instant are applied first. -/
def checkAndNotifyReminders (userId : String) (inp : TickInput)
    (st : Svc) : Svc × List String :=
  let due := fetchDueReminders inp.fetchEnv inp.meds inp.schedules userId
    inp.currentTime
  let st0 := { st with
    lastNotified := expireNotified inp.time st.lastNotified,
    evalCount := st.evalCount + 1 }
  due.foldl (notifyStep userId inp.time) (st0, [])

/-- checkMissedMedications: the escalation sweep. Its reads and alert
emails leave this core; its effect on the modelled state is only that
it ran once. -/
def checkMissedMedications (userId : String) (st : Svc) : Svc :=
  { st with sweepCount := st.sweepCount + 1 }

/-- The millisecond delay until the next minute boundary, as the source
computes it: ((60 - seconds) mod 60) * 1000 - milliseconds, clamped at
zero by Math.max. -/
def alignmentDelay (sec ms : Nat) : Nat :=
  (max 0 ((((60 - (sec : Int)) % 60) * 1000) - (ms : Int))).toNat

/-- startReminderService: return unchanged when reminderCheckInterval
is set; otherwise run one immediate evaluation and one escalation
sweep, then create the minute-boundary alignment timeout and store its
handle in nextCheckTimeout. -/
def startReminderService (userId : String) (inp : TickInput)
    (st : Svc) : Svc :=
  if st.reminderCheckInterval.isSome then st
  else
    let st1 := (checkAndNotifyReminders userId inp st).1
    let st2 := checkMissedMedications userId st1
    let d := alignmentDelay inp.sec inp.ms
    let tid := st2.nextId
    { st2 with nextCheckTimeout := some (tid, d),
               pendingTimeouts := st2.pendingTimeouts ++ [(tid, d)],
               nextId := tid + 1 }

/-- The alignment timeout callback: when the timer with this id is
still pending, it fires (leaving the runtime timer table), runs one
evaluation, and creates the recurring 60000 ms interval, storing its
handle in reminderCheckInterval. -/
def fireAlignmentTimeout (userId : String) (inp : TickInput) (tid : Nat)
    (st : Svc) : Svc :=
  match st.pendingTimeouts.find? (fun p => p.1 == tid) with
  | none => st
  | some _ =>
    let st1 := { st with
      pendingTimeouts := st.pendingTimeouts.filter (fun q => q.1 ≠ tid) }
    let st2 := (checkAndNotifyReminders userId inp st1).1
    let iid := st2.nextId
    { st2 with reminderCheckInterval := some (iid, 60000),
               pendingIntervals := st2.pendingIntervals ++ [(iid, 60000)],
               nextId := iid + 1 }

/-- stopReminderService: clear and null the recurring interval and the
alignment timeout when set, empty the dedup set, and cancel every
auto-mark timer. -/
def stopReminderService (st : Svc) : Svc :=
  let st1 :=
    match st.reminderCheckInterval with
    | some itv =>
      { st with
        reminderCheckInterval := none,
        pendingIntervals := st.pendingIntervals.filter (fun q => q ≠ itv) }
    | none => st
  let st2 :=
    match st1.nextCheckTimeout with
    | some t =>
      { st1 with
        nextCheckTimeout := none,
        pendingTimeouts := st1.pendingTimeouts.filter (fun q => q ≠ t) }
    | none => st1
  { st2 with lastNotified := [], autoMarkTimeouts := [] }

/-- isReminderServiceRunning: whether reminderCheckInterval is set. -/
def isReminderServiceRunning (st : Svc) : Bool :=
  st.reminderCheckInterval.isSome

/-- Run a sequence of checkAndNotifyReminders invocations, returning
for each one its time and the list of dedup keys dispatched there. -/
def runNotify (userId : String) (st : Svc) :
    List TickInput → List (Nat × List String)
  | [] => []
  | inp :: rest =>
    let p := checkAndNotifyReminders userId inp st
    (inp.time, p.2) :: runNotify userId p.1 rest

lemma db_clearAutoMarkTimeout (userId medicationId reminderTime : String)
    (st : Svc) :
    (clearAutoMarkTimeout userId medicationId reminderTime st).db = st.db :=
  rfl

lemma mem_filter_of_key {st : Svc} {medicationId userId sched : String}
    {r : AdherenceLog} (hr : r ∈ st.db)
    (hm : matchesKey medicationId userId sched r = true) :
    r ∈ st.db.filter (matchesKey medicationId userId sched) :=
  List.mem_filter.mpr ⟨hr, hm⟩

/-- C1: when recordAdherenceStatus runs with status not_taken_auto and
skipIfCompleted (the 5-minute auto-mark timeout path), every stored row
whose status is already taken or missed survives unchanged; and when
the row the call re-reads for its own (medication, user, scheduled
datetime) triple is already taken or missed, the whole table is left
exactly as it was — the timeout write is discarded. -/
theorem claim1_terminal_never_overwritten (env : RecordEnv) (st : Svc)
    (userId medicationId reminderTime : String)
    (hid : ∀ a ∈ st.db, ∀ b ∈ st.db, a.id = b.id → a = b) :
    (∀ r ∈ st.db,
      (r.status = AdherenceStatus.taken ∨ r.status = AdherenceStatus.missed) →
      r ∈ (recordAdherenceStatus env userId medicationId reminderTime
        AdherenceStatus.not_taken_auto true st).db)
    ∧ ((∃ r ∈ st.db,
        matchesKey medicationId userId
          (getScheduledDateTime env.today reminderTime) r = true ∧
        (r.status = AdherenceStatus.taken ∨ r.status = AdherenceStatus.missed)) →
      (recordAdherenceStatus env userId medicationId reminderTime
        AdherenceStatus.not_taken_auto true st).db = st.db) := by
  by_cases hre : env.readError
  · simp only [recordAdherenceStatus, hre, if_true]
    exact ⟨fun r hr _ => hr, fun _ => by trivial⟩
  · rcases hflt : st.db.filter (matchesKey medicationId userId
      (getScheduledDateTime env.today reminderTime)) with _ | ⟨x, xs⟩
    · -- no existing row: the call inserts a fresh not_taken_auto row
      simp only [recordAdherenceStatus, hre, if_false, hflt, maybeSingle,
        Option.any_none, Bool.and_false, Bool.false_eq_true]
      by_cases hwe : env.writeError
      · simp only [hwe, if_true]
        exact ⟨fun r hr _ => hr, fun _ => by trivial⟩
      · simp only [hwe, Bool.false_eq_true, if_false, ne_eq,
          not_true_eq_false, reduceIte]
        refine ⟨fun r hr _ => List.mem_append_left _ hr, fun hex => ?_⟩
        obtain ⟨r, hr, hm, _⟩ := hex
        have := mem_filter_of_key hr hm
        rw [hflt] at this
        exact absurd this (List.not_mem_nil r)
    · rcases xs with _ | ⟨y, rest⟩
      · -- exactly one existing row x
        have hx : x ∈ st.db ∧ matchesKey medicationId userId
            (getScheduledDateTime env.today reminderTime) x = true := by
          have : x ∈ st.db.filter (matchesKey medicationId userId
            (getScheduledDateTime env.today reminderTime)) := by
            rw [hflt]; exact List.mem_singleton_self x
          exact List.mem_filter.mp this
        by_cases hterm : x.status = AdherenceStatus.taken ∨
            x.status = AdherenceStatus.missed
        · -- the found row is terminal: skip path, table untouched
          have hcond : (x.status == AdherenceStatus.taken ||
              x.status == AdherenceStatus.missed) = true := by
            rcases hterm with h | h <;> rw [h] <;> decide
          simp only [recordAdherenceStatus, hre, if_false, hflt,
            maybeSingle, Option.any_some, hcond, Bool.and_true,
            Bool.true_and, if_true, db_clearAutoMarkTimeout]
          exact ⟨fun r hr _ => hr, fun _ => by trivial⟩
        · -- the found row is not terminal: it is updated in place,
          -- which cannot touch any terminal row
          push_neg at hterm
          have hcond : (x.status == AdherenceStatus.taken ||
              x.status == AdherenceStatus.missed) = false := by
            cases hs : x.status
            · exact absurd hs hterm.1
            · exact absurd hs hterm.2
            · decide
          simp only [recordAdherenceStatus, hre, if_false, hflt,
            maybeSingle, Option.any_some, hcond, Bool.and_false,
            Bool.true_and, Bool.false_eq_true, if_false]
          by_cases hwe : env.writeError
          · simp only [hwe, if_true]
            exact ⟨fun r hr _ => hr, fun _ => by trivial⟩
          · simp only [hwe, Bool.false_eq_true, if_false, ne_eq,
              not_true_eq_false, reduceIte]
            constructor
            · intro r hr hrterm
              have hxterm : ¬(x.status = AdherenceStatus.taken ∨
                  x.status = AdherenceStatus.missed) := by
                rintro (h | h)
                · exact hterm.1 h
                · exact hterm.2 h
              have hne : r.id ≠ x.id := by
                intro heq
                have hrx : r = x := hid r hr x hx.1 heq
                rw [hrx] at hrterm
                exact hxterm hrterm
              refine List.mem_map.mpr ⟨r, hr, ?_⟩
              simp [hne]
            · intro hex
              obtain ⟨r, hr, hm, hrterm⟩ := hex
              have hmem : r ∈ st.db.filter (matchesKey medicationId userId
                (getScheduledDateTime env.today reminderTime)) :=
                mem_filter_of_key hr hm
              rw [hflt] at hmem
              have hrx : r = x := List.mem_singleton.mp hmem
              rw [hrx] at hrterm
              rcases hrterm with h | h
              · exact absurd h hterm.1
              · exact absurd h hterm.2
      · -- two or more rows share the triple: maybeSingle errors out
        simp only [recordAdherenceStatus, hre, if_false, hflt, maybeSingle]
        exact ⟨fun r hr _ => hr, fun _ => by trivial⟩

/-- A concrete taken row used by concrete instantiations below. -/
def sampleTakenLog : AdherenceLog :=
  { id := 1, medication_id := "m1", user_id := "u1",
    scheduled_time := "2026-01-05T08:00",
    status := AdherenceStatus.taken,
    taken_at := some "2026-01-05T08:01:00Z" }

/-- A concrete service state holding only the taken row. -/
def sampleSvcTaken : Svc := { initSvc with db := [sampleTakenLog] }

/-- A concrete error-free clock and database environment for a call
made at 08:05 on 2026-01-05. -/
def sampleEnv : RecordEnv :=
  { today := "2026-01-05", now := "2026-01-05T08:05:00Z",
    readError := false, writeError := false, newId := 9 }

/-- Witness for C1 at a concrete state: one taken row for the triple on
2026-01-05, and the auto-mark timeout call leaves the table unchanged. -/
theorem claim1_terminal_never_overwritten_witness :
    (recordAdherenceStatus sampleEnv "u1" "m1" "08:00"
      AdherenceStatus.not_taken_auto true sampleSvcTaken).db =
      sampleSvcTaken.db :=
  (claim1_terminal_never_overwritten sampleEnv sampleSvcTaken
    "u1" "m1" "08:00" (by decide)).2 (by decide)

lemma matchesKey_iff {medicationId userId sched : String}
    {l : AdherenceLog} :
    matchesKey medicationId userId sched l = true ↔
    adherenceKey l = (medicationId, userId, sched) := by
  simp [matchesKey, adherenceKey, Prod.ext_iff, and_assoc]

lemma db_ite_clear (c : Prop) [Decidable c] (u m t : String) (s : Svc) :
    (if c then clearAutoMarkTimeout u m t s else s).db = s.db := by
  split <;> rfl

lemma atMostOne_update (db : List AdherenceLog) (xid : Nat)
    (status : AdherenceStatus) (ta : Option String)
    (h : atMostOnePerKey db) :
    atMostOnePerKey (db.map (fun r =>
      if r.id = xid then { r with status := status, taken_at := ta }
      else r)) := by
  refine List.pairwise_map.mpr (h.imp ?_)
  intro a b hab hk
  apply hab
  have ka : adherenceKey (if a.id = xid then
      { a with status := status, taken_at := ta } else a) =
      adherenceKey a := by split <;> rfl
  have kb : adherenceKey (if b.id = xid then
      { b with status := status, taken_at := ta } else b) =
      adherenceKey b := by split <;> rfl
  rw [ka, kb] at hk
  exact hk

lemma atMostOne_insert (db : List AdherenceLog) (nw : AdherenceLog)
    (h : atMostOnePerKey db)
    (hnone : ∀ a ∈ db, adherenceKey a ≠ adherenceKey nw) :
    atMostOnePerKey (db ++ [nw]) := by
  refine List.pairwise_append.mpr ⟨h, List.pairwise_singleton _ _, ?_⟩
  intro a ha b hb
  rcases List.mem_singleton.mp hb with rfl
  exact hnone a ha

/-- C4: recordAdherenceStatus preserves the invariant that at most one
adherence row exists per (medication id, user id, scheduled datetime)
triple: it re-reads the row for the triple first, updates it in place
when found, and inserts only when no row for the triple exists. -/
theorem claim4_upsert_preserves_uniqueness (env : RecordEnv) (st : Svc)
    (userId medicationId reminderTime : String)
    (status : AdherenceStatus) (skipIfCompleted : Bool)
    (h : atMostOnePerKey st.db) :
    atMostOnePerKey (recordAdherenceStatus env userId medicationId
      reminderTime status skipIfCompleted st).db := by
  by_cases hre : env.readError
  · simpa only [recordAdherenceStatus, hre, if_true] using h
  · rcases hflt : st.db.filter (matchesKey medicationId userId
      (getScheduledDateTime env.today reminderTime)) with _ | ⟨x, xs⟩
    · -- no row for the triple: insert one fresh row
      simp only [recordAdherenceStatus, hre, Bool.false_eq_true, if_false,
        hflt, maybeSingle, Option.any_none, Bool.and_false]
      by_cases hwe : env.writeError
      · simpa only [hwe, if_true] using h
      · simp only [hwe, Bool.false_eq_true, if_false, db_ite_clear]
        refine atMostOne_insert _ _ h ?_
        intro a ha hk
        have hm : matchesKey medicationId userId
            (getScheduledDateTime env.today reminderTime) a = true :=
          matchesKey_iff.mpr hk
        have : a ∈ st.db.filter (matchesKey medicationId userId
          (getScheduledDateTime env.today reminderTime)) :=
          List.mem_filter.mpr ⟨ha, hm⟩
        rw [hflt] at this
        exact absurd this (List.not_mem_nil a)
    · rcases xs with _ | ⟨y, rest⟩
      · -- one row for the triple: either skip or update in place
        by_cases hskip : (skipIfCompleted &&
            (x.status == AdherenceStatus.taken ||
             x.status == AdherenceStatus.missed)) = true
        · simp only [recordAdherenceStatus, hre, Bool.false_eq_true,
            if_false, hflt, maybeSingle, Option.any_some, hskip, if_true,
            db_clearAutoMarkTimeout]
          exact h
        · have hskip2 : (skipIfCompleted &&
              (x.status == AdherenceStatus.taken ||
               x.status == AdherenceStatus.missed)) = false :=
            Bool.not_eq_true _ ▸ (Bool.eq_false_iff.mpr hskip)
          simp only [recordAdherenceStatus, hre, Bool.false_eq_true,
            if_false, hflt, maybeSingle, Option.any_some, hskip2]
          by_cases hwe : env.writeError
          · simpa only [hwe, if_true] using h
          · simp only [hwe, Bool.false_eq_true, if_false, db_ite_clear]
            exact atMostOne_update st.db x.id status
              (payloadTakenAt env status) h
      · -- more than one row already: the read errors, nothing changes
        simpa only [recordAdherenceStatus, hre, Bool.false_eq_true,
          if_false, hflt, maybeSingle] using h

/-- Witness for C4 at a concrete state: recording taken over a state
that already has the unique row for the triple keeps the keys unique. -/
theorem claim4_upsert_preserves_uniqueness_witness :
    atMostOnePerKey (recordAdherenceStatus sampleEnv "u1" "m1" "08:00"
      AdherenceStatus.taken false sampleSvcTaken).db :=
  claim4_upsert_preserves_uniqueness sampleEnv sampleSvcTaken
    "u1" "m1" "08:00" AdherenceStatus.taken false
    (by simp [atMostOnePerKey, sampleSvcTaken, initSvc])

lemma autoMark_subset_record (env : RecordEnv)
    (userId medicationId reminderTime : String)
    (status : AdherenceStatus) (skipIfCompleted : Bool) (st : Svc)
    (k : String)
    (hk : k ∈ (recordAdherenceStatus env userId medicationId reminderTime
      status skipIfCompleted st).autoMarkTimeouts) :
    k ∈ st.autoMarkTimeouts := by
  simp only [recordAdherenceStatus] at hk
  repeat' split at hk
  all_goals
    first
      | exact hk
      | exact (List.mem_filter.mp hk).1

lemma key_not_mem_clear (u m t : String) (st : Svc) :
    getReminderKey u m t ∉
      (clearAutoMarkTimeout u m t st).autoMarkTimeouts := by
  intro h
  have h2 := (List.mem_filter.mp h).2
  simp at h2

lemma record_writes_row (env : RecordEnv)
    (userId medicationId reminderTime : String)
    (status : AdherenceStatus) (st : Svc)
    (hre : env.readError = false) (hwe : env.writeError = false)
    (hone : (st.db.filter (matchesKey medicationId userId
      (getScheduledDateTime env.today reminderTime))).length ≤ 1) :
    ∃ r ∈ (recordAdherenceStatus env userId medicationId reminderTime
        status false st).db,
      matchesKey medicationId userId
        (getScheduledDateTime env.today reminderTime) r = true ∧
      r.status = status ∧ r.taken_at = payloadTakenAt env status := by
  rcases hflt : st.db.filter (matchesKey medicationId userId
    (getScheduledDateTime env.today reminderTime)) with _ | ⟨x, xs⟩
  · -- no row yet: the fresh row is inserted at the end
    simp only [recordAdherenceStatus, hre, Bool.false_eq_true, if_false,
      hflt, maybeSingle, Option.any_none, Bool.and_false, Bool.false_and,
      hwe, db_ite_clear]
    refine ⟨{ id := env.newId,
              medication_id := medicationId,
              user_id := userId,
              scheduled_time := getScheduledDateTime env.today reminderTime,
              status := status,
              taken_at := payloadTakenAt env status },
      ?_, ?_, rfl, rfl⟩
    · exact List.mem_append_right _ (List.mem_singleton_self _)
    · simp [matchesKey]
  · rcases xs with _ | ⟨y, rest⟩
    · -- one row: it is rewritten in place
      have hx : x ∈ st.db ∧ matchesKey medicationId userId
          (getScheduledDateTime env.today reminderTime) x = true := by
        have hmem : x ∈ st.db.filter (matchesKey medicationId userId
          (getScheduledDateTime env.today reminderTime)) := by
          rw [hflt]; exact List.mem_singleton_self x
        exact List.mem_filter.mp hmem
      simp only [recordAdherenceStatus, hre, Bool.false_eq_true, if_false,
        hflt, maybeSingle, Option.any_some, Bool.and_false, Bool.false_and,
        hwe, db_ite_clear]
      refine ⟨{ x with status := status, taken_at := payloadTakenAt env status },
        ?_, ?_, rfl, rfl⟩
      · refine List.mem_map.mpr ⟨x, hx.1, ?_⟩
        simp
      · have hm := hx.2
        simp only [matchesKey] at hm ⊢
        exact hm
    · -- impossible: the filter length bound excludes two rows
      rw [hflt] at hone
      simp at hone

/-- C5: marking a medication taken cancels the pending auto-mark timer
for its (user, medication, reminder time) key and upserts the row for
the triple with status taken and taken_at equal to the current time;
marking it missed likewise cancels the timer and upserts status missed
with a null taken_at; and in general the taken_at the upsert payload
carries is non-null exactly when the status written is taken. -/
theorem claim5_mark_taken_and_missed (env : RecordEnv) (st : Svc)
    (userId : String) (medication : MedicationWithSchedule)
    (hre : env.readError = false) (hwe : env.writeError = false)
    (hone : (st.db.filter (matchesKey medication.id userId
      (getScheduledDateTime env.today medication.reminder_time))).length
      ≤ 1) :
    (getReminderKey userId medication.id medication.reminder_time ∉
      (handleMarkAsTaken env userId medication st).autoMarkTimeouts) ∧
    (∃ r ∈ (handleMarkAsTaken env userId medication st).db,
      matchesKey medication.id userId
        (getScheduledDateTime env.today medication.reminder_time) r
        = true ∧
      r.status = AdherenceStatus.taken ∧ r.taken_at = some env.now) ∧
    (getReminderKey userId medication.id medication.reminder_time ∉
      (handleMarkAsMissed env userId medication st).autoMarkTimeouts) ∧
    (∃ r ∈ (handleMarkAsMissed env userId medication st).db,
      matchesKey medication.id userId
        (getScheduledDateTime env.today medication.reminder_time) r
        = true ∧
      r.status = AdherenceStatus.missed ∧ r.taken_at = none) ∧
    (∀ s, (payloadTakenAt env s).isSome = true ↔
      s = AdherenceStatus.taken) := by
  have hdbclear : (clearAutoMarkTimeout userId medication.id
      medication.reminder_time st).db = st.db := rfl
  refine ⟨?_, ?_, ?_, ?_, ?_⟩
  · intro hk
    exact key_not_mem_clear userId medication.id medication.reminder_time
      st (autoMark_subset_record _ _ _ _ _ _ _ _ hk)
  · have := record_writes_row env userId medication.id
      medication.reminder_time AdherenceStatus.taken
      (clearAutoMarkTimeout userId medication.id
        medication.reminder_time st) hre hwe (by rw [hdbclear]; exact hone)
    simpa [handleMarkAsTaken, payloadTakenAt] using this
  · intro hk
    exact key_not_mem_clear userId medication.id medication.reminder_time
      st (autoMark_subset_record _ _ _ _ _ _ _ _ hk)
  · have := record_writes_row env userId medication.id
      medication.reminder_time AdherenceStatus.missed
      (clearAutoMarkTimeout userId medication.id
        medication.reminder_time st) hre hwe (by rw [hdbclear]; exact hone)
    simpa [handleMarkAsMissed, payloadTakenAt] using this
  · intro s
    cases s <;> simp [payloadTakenAt]

/-- A concrete due reminder entry used by concrete instantiations. -/
def sampleMed : MedicationWithSchedule :=
  { id := "m1", medication_name := "Aspirin", dosage := "100mg",
    instructions := none, reminder_time := "08:00" }

/-- Witness for C5 at a concrete empty state. -/
theorem claim5_mark_taken_and_missed_witness :
    (getReminderKey "u1" sampleMed.id sampleMed.reminder_time ∉
      (handleMarkAsTaken sampleEnv "u1" sampleMed
        initSvc).autoMarkTimeouts) ∧
    (∃ r ∈ (handleMarkAsTaken sampleEnv "u1" sampleMed initSvc).db,
      matchesKey sampleMed.id "u1"
        (getScheduledDateTime sampleEnv.today sampleMed.reminder_time) r
        = true ∧
      r.status = AdherenceStatus.taken ∧
      r.taken_at = some sampleEnv.now) ∧
    (getReminderKey "u1" sampleMed.id sampleMed.reminder_time ∉
      (handleMarkAsMissed sampleEnv "u1" sampleMed
        initSvc).autoMarkTimeouts) ∧
    (∃ r ∈ (handleMarkAsMissed sampleEnv "u1" sampleMed initSvc).db,
      matchesKey sampleMed.id "u1"
        (getScheduledDateTime sampleEnv.today sampleMed.reminder_time) r
        = true ∧
      r.status = AdherenceStatus.missed ∧ r.taken_at = none) ∧
    (∀ s, (payloadTakenAt sampleEnv s).isSome = true ↔
      s = AdherenceStatus.taken) :=
  claim5_mark_taken_and_missed sampleEnv initSvc "u1" sampleMed
    (by decide) (by decide) (by decide)

lemma string_append_right_cancel {a b c : String} (h : a ++ c = b ++ c) :
    a = b := by
  have hd := congrArg String.data h
  rw [String.data_append, String.data_append] at hd
  exact String.ext (List.append_cancel_right hd)

/-- An error-free RecordEnv for a call seeing UTC date today, timestamp
now, and inserting with the given fresh id. -/
def mkRecordEnv (today now : String) (newId : Nat) : RecordEnv :=
  { today := today, now := now, readError := false, writeError := false,
    newId := newId }

/-- C10: the scheduled datetime keying an adherence row is the UTC
calendar date read at the moment of the recordAdherenceStatus call,
joined by T with the local-time HH:MM reminder string; hence calls for
the same occurrence made on two different UTC dates use two different
keys, so a taken row written on the first date is not found by the
auto-mark call on the second date, which inserts a second, distinct
row instead of touching the first. -/
theorem claim10_scheduled_datetime_at_call_time
    (d1 d2 t u m now1 now2 : String) (id1 id2 : Nat) (hne : d1 ≠ d2) :
    (∀ d r, getScheduledDateTime d r = d ++ "T" ++ r) ∧
    getScheduledDateTime d1 t ≠ getScheduledDateTime d2 t ∧
    (recordAdherenceStatus (mkRecordEnv d2 now2 id2) u m t
      AdherenceStatus.not_taken_auto true
      (recordAdherenceStatus (mkRecordEnv d1 now1 id1) u m t
        AdherenceStatus.taken false initSvc)).db =
    [{ id := id1, medication_id := m, user_id := u,
       scheduled_time := getScheduledDateTime d1 t,
       status := AdherenceStatus.taken, taken_at := some now1 },
     { id := id2, medication_id := m, user_id := u,
       scheduled_time := getScheduledDateTime d2 t,
       status := AdherenceStatus.not_taken_auto, taken_at := none }] := by
  have hkey : getScheduledDateTime d1 t ≠ getScheduledDateTime d2 t := by
    intro h
    unfold getScheduledDateTime at h
    exact hne (string_append_right_cancel
      (string_append_right_cancel (a := d1 ++ "T") (b := d2 ++ "T") h))
  refine ⟨fun _ _ => rfl, hkey, ?_⟩
  have hbeq : (getScheduledDateTime d1 t == getScheduledDateTime d2 t)
      = false := beq_eq_false_iff_ne.mpr hkey
  simp [recordAdherenceStatus, mkRecordEnv, initSvc, matchesKey,
    maybeSingle, payloadTakenAt, clearAutoMarkTimeout, hbeq]

/-- Witness for C10 at two concrete consecutive UTC dates. -/
theorem claim10_scheduled_datetime_at_call_time_witness :
    (∀ d r, getScheduledDateTime d r = d ++ "T" ++ r) ∧
    getScheduledDateTime "2026-01-05" "23:59" ≠
      getScheduledDateTime "2026-01-06" "23:59" ∧
    (recordAdherenceStatus (mkRecordEnv "2026-01-06" "n2" 4) "u1" "m1"
      "23:59" AdherenceStatus.not_taken_auto true
      (recordAdherenceStatus (mkRecordEnv "2026-01-05" "n1" 3) "u1" "m1"
        "23:59" AdherenceStatus.taken false initSvc)).db =
    [{ id := 3, medication_id := "m1", user_id := "u1",
       scheduled_time := getScheduledDateTime "2026-01-05" "23:59",
       status := AdherenceStatus.taken, taken_at := some "n1" },
     { id := 4, medication_id := "m1", user_id := "u1",
       scheduled_time := getScheduledDateTime "2026-01-06" "23:59",
       status := AdherenceStatus.not_taken_auto, taken_at := none }] :=
  claim10_scheduled_datetime_at_call_time "2026-01-05" "2026-01-06"
    "23:59" "u1" "m1" "n1" "n2" 3 4 (by decide)

/-- C9: every failure of an underlying step degrades to a safe default
instead of propagating: a schedule-fetch error, a medication-fetch
error, no schedule matching the current time, and a user without
active medications all make fetchDueReminders return the empty list,
and a failing read or write makes recordAdherenceStatus leave the
stored table untouched. In this embedding every operation of the core
is a total function, mirroring the try/catch wrappers that stop any
exception at the component boundary. -/
theorem claim9_failures_degrade_to_empty (env : FetchEnv)
    (renv : RecordEnv) (meds : List Medication)
    (schedules : List Schedule)
    (userId currentTime medicationId reminderTime : String)
    (status : AdherenceStatus) (skipIfCompleted : Bool) (st : Svc) :
    (env.schedulesError = true →
      fetchDueReminders env meds schedules userId currentTime = []) ∧
    (env.medicationsError = true →
      fetchDueReminders env meds schedules userId currentTime = []) ∧
    ((∀ s ∈ schedules,
        ¬(s.active = true ∧ s.reminder_time = currentTime)) →
      fetchDueReminders env meds schedules userId currentTime = []) ∧
    ((∀ mm ∈ meds, ¬(mm.user_id = userId ∧ mm.active = true)) →
      fetchDueReminders env meds schedules userId currentTime = []) ∧
    (renv.readError = true →
      recordAdherenceStatus renv userId medicationId reminderTime status
        skipIfCompleted st = st) ∧
    (renv.writeError = true →
      (recordAdherenceStatus renv userId medicationId reminderTime status
        skipIfCompleted st).db = st.db) := by
  refine ⟨?_, ?_, ?_, ?_, ?_, ?_⟩
  · intro h
    simp [fetchDueReminders, h]
  · intro h
    simp [fetchDueReminders, h]
  · intro h
    have hf : schedules.filter (fun s =>
        s.active && s.reminder_time == currentTime) = [] := by
      refine List.filter_eq_nil_iff.mpr ?_
      intro s hs
      simp only [Bool.and_eq_true, beq_iff_eq]
      exact fun hc => h s hs ⟨hc.1, hc.2⟩
    simp [fetchDueReminders, hf]
  · intro h
    have hf : meds.filter (fun mm => mm.user_id == userId && mm.active)
        = [] := by
      refine List.filter_eq_nil_iff.mpr ?_
      intro mm hmm
      simp only [Bool.and_eq_true, beq_iff_eq]
      exact fun hc => h mm hmm ⟨hc.1, hc.2⟩
    simp only [fetchDueReminders, hf, List.map_nil]
    have hnone : ∀ sm : Schedule × Option Medication,
        (match sm.2 with
          | some med =>
            if ([] : List String).contains med.id then
              some { id := med.id,
                     medication_name := med.medication_name,
                     dosage := med.dosage,
                     instructions := med.instructions,
                     reminder_time := sm.1.reminder_time }
            else none
          | none => (none : Option MedicationWithSchedule)) = none := by
      intro sm
      rcases sm.2 with _ | med
      · rfl
      · rfl
    rw [List.filterMap_eq_nil_iff.mpr (fun sm _ => hnone sm)]
    simp
  · intro h
    simp [recordAdherenceStatus, h]
  · intro h
    simp only [recordAdherenceStatus, h]
    repeat' split
    all_goals first
      | rfl
      | exact absurd trivial ‹¬True›

/-- Witness for C9: a schedule-fetch error yields the empty list. -/
theorem claim9_failures_degrade_to_empty_witness :
    fetchDueReminders { schedulesError := true, medicationsError := false }
      [] [] "u1" "08:00" = [] :=
  (claim9_failures_degrade_to_empty
    { schedulesError := true, medicationsError := false } sampleEnv [] []
    "u1" "08:00" "m1" "08:00" AdherenceStatus.taken false initSvc).1 rfl

/-- A FetchEnv in which both fetch steps succeed. -/
def noFetchErrors : FetchEnv :=
  { schedulesError := false, medicationsError := false }

/-- C2: invoked at exactly the time-of-day of schedule S, under
well-formed data (medication ids unique, no second schedule with the
same medication and time as S, and the medication row of S present),
the resolver returns the entry derived from S exactly when S is
active, its medication is active, and that medication is owned by the
querying user; the returned entry carries the medication name, dosage
and instructions and the reminder time of S (this is the shape of
entryOf). -/
theorem claim2_resolver_returns_iff (env : FetchEnv)
    (meds : List Medication) (schedules : List Schedule)
    (userId : String) (S : Schedule) (m : Medication)
    (hse : env.schedulesError = false)
    (hme : env.medicationsError = false)
    (hids : ∀ a ∈ meds, ∀ b ∈ meds, a.id = b.id → a = b)
    (hm : m ∈ meds) (hmid : m.id = S.medication_id) (hS : S ∈ schedules)
    (hdup : ∀ s ∈ schedules, s.medication_id = S.medication_id →
      s.reminder_time = S.reminder_time → s = S) :
    entryOf m S ∈
      fetchDueReminders env meds schedules userId S.reminder_time ↔
    (S.active = true ∧ m.active = true ∧ m.user_id = userId) := by
  constructor
  · -- membership implies the three conditions
    intro hmem
    rw [fetchDueReminders] at hmem
    simp only [hse, hme, Bool.false_eq_true, if_false] at hmem
    rcases hemp : ((schedules.filter (fun s =>
        s.active && s.reminder_time == S.reminder_time)).map (fun s =>
          (s, meds.find? (fun mm => mm.id == s.medication_id)))).isEmpty with _ | _
    case false =>
      rw [hemp] at hmem
      simp only [Bool.false_eq_true, if_false] at hmem
      obtain ⟨sm, hrow, hf⟩ := List.mem_filterMap.mp hmem
      obtain ⟨S2, hS2f, hpair⟩ := List.mem_map.mp hrow
      rcases hmed : sm.2 with _ | med
      · rw [hmed] at hf
        exact absurd hf (by simp)
      · rw [hmed] at hf
        dsimp only at hf
        rcases hcont : (((meds.filter (fun mm =>
            mm.user_id == userId && mm.active)).map
              Medication.id).contains med.id) with _ | _
        case false =>
          rw [hcont] at hf
          simp at hf
        case true =>
          rw [hcont] at hf
          simp only [eq_self_iff_true, if_true, Option.some.injEq] at hf
          -- identify the row: it carries the id of m
          have hfields := congrArg MedicationWithSchedule.id hf
          simp only [entryOf] at hfields
          have hrt := congrArg MedicationWithSchedule.reminder_time hf
          simp only [entryOf] at hrt
          -- the joined medication row is m itself
          have hsm1 : sm.1 = S2 := by rw [← hpair]
          have hsm2 : meds.find? (fun mm => mm.id == S2.medication_id)
              = some med := by
            have := congrArg Prod.snd hpair
            simp only at this
            rw [← hmed, this]
          have hmedmem : med ∈ meds := List.mem_of_find?_eq_some hsm2
          have hmedid0 := List.find?_some hsm2
          simp only [beq_iff_eq] at hmedid0
          have hmedm : med = m := hids med hmedmem m hm (by rw [hfields])
          -- S2 coincides with S by the no-duplicate hypothesis
          have hS2mem : S2 ∈ schedules ∧ (S2.active &&
              S2.reminder_time == S.reminder_time) = true :=
            List.mem_filter.mp hS2f
          have hS2id : S2.medication_id = S.medication_id := by
            rw [← hmedid0, hmedm, hmid]
          have hS2rt : S2.reminder_time = S.reminder_time :=
            beq_iff_eq.mp (Bool.and_elim_right hS2mem.2)
          have hS2S : S2 = S := hdup S2 hS2mem.1 hS2id hS2rt
          refine ⟨?_, ?_, ?_⟩
          · rw [← hS2S]
            exact Bool.and_elim_left hS2mem.2
          · -- m is in the filtered user medication list
            obtain ⟨mu, hmu, hmuid⟩ := List.mem_map.mp
              (List.elem_iff.mp hcont)
            have hmuf := List.mem_filter.mp hmu
            have hmum : mu = m := hids mu hmuf.1 m hm (by
              rw [hmuid, hfields])
            have := hmuf.2
            rw [hmum] at this
            exact Bool.and_elim_right this
          · obtain ⟨mu, hmu, hmuid⟩ := List.mem_map.mp
              (List.elem_iff.mp hcont)
            have hmuf := List.mem_filter.mp hmu
            have hmum : mu = m := hids mu hmuf.1 m hm (by
              rw [hmuid, hfields])
            have := hmuf.2
            rw [hmum] at this
            exact beq_iff_eq.mp (Bool.and_elim_left this)
    case true =>
      rw [hemp] at hmem
      simp only [if_true] at hmem
      exact absurd hmem (List.not_mem_nil _)
  · -- the three conditions imply membership
    rintro ⟨hact, hmact, howner⟩
    have hSf : S ∈ schedules.filter (fun s =>
        s.active && s.reminder_time == S.reminder_time) :=
      List.mem_filter.mpr ⟨hS, by simp [hact]⟩
    have hfind : meds.find? (fun mm => mm.id == S.medication_id)
        = some m := by
      rcases hfd : meds.find? (fun mm => mm.id == S.medication_id)
        with _ | m2
      · exact absurd (by simp [hmid]) (List.find?_eq_none.mp hfd m hm)
      · have hm2 : m2 ∈ meds := List.mem_of_find?_eq_some hfd
        have hm2id0 := List.find?_some hfd
        simp only [beq_iff_eq] at hm2id0
        have hm2m : m2 = m := hids m2 hm2 m hm (by rw [hm2id0, hmid])
        rw [hfd, hm2m]
    have hrow : (S, some m) ∈ (schedules.filter (fun s =>
        s.active && s.reminder_time == S.reminder_time)).map (fun s =>
          (s, meds.find? (fun mm => mm.id == s.medication_id))) :=
      List.mem_map.mpr ⟨S, hSf, by rw [hfind]⟩
    have hcont : (((meds.filter (fun mm =>
        mm.user_id == userId && mm.active)).map
          Medication.id).contains m.id) = true :=
      List.elem_iff.mpr (List.mem_map.mpr
        ⟨m, List.mem_filter.mpr ⟨hm, by simp [howner, hmact]⟩, rfl⟩)
    have hemp : ((schedules.filter (fun s =>
        s.active && s.reminder_time == S.reminder_time)).map (fun s =>
          (s, meds.find? (fun mm => mm.id == s.medication_id)))).isEmpty
        = false := by
      rcases hl : (schedules.filter (fun s =>
          s.active && s.reminder_time == S.reminder_time)).map (fun s =>
            (s, meds.find? (fun mm => mm.id == s.medication_id)))
        with _ | ⟨a, l2⟩
      · rw [hl] at hrow
        exact absurd hrow (List.not_mem_nil _)
      · rw [hl]
        rfl
    simp only [fetchDueReminders, hse, hme, Bool.false_eq_true, if_false,
      hemp]
    exact List.mem_filterMap.mpr ⟨(S, some m), hrow, by
      simp only [hcont, if_true, entryOf]⟩

/-- A concrete medication row owned by the sample user. -/
def sampleMedRow : Medication :=
  { id := "m1", user_id := "u1", medication_name := "Aspirin",
    dosage := "100mg", instructions := none, active := true }

/-- A concrete active schedule for the sample medication at 08:00. -/
def sampleSchedule : Schedule :=
  { id := "s1", medication_id := "m1", reminder_time := "08:00",
    active := true }

/-- Witness for C2: with one active schedule and one active owned
medication, the resolver returns exactly the derived entry. -/
theorem claim2_resolver_returns_iff_witness :
    entryOf sampleMedRow sampleSchedule ∈
      fetchDueReminders noFetchErrors [sampleMedRow] [sampleSchedule]
        "u1" sampleSchedule.reminder_time :=
  (claim2_resolver_returns_iff noFetchErrors
    [sampleMedRow] [sampleSchedule] "u1" sampleSchedule sampleMedRow
    rfl rfl (by decide) (by decide) (by decide) (by decide)
    (by decide)).mpr (by decide)

/-- The value notifyStep produces when the key is not yet in the dedup
set: the key enters the set with its expiry, the auto-mark timer is
re-armed, and the key is appended to the dispatched list. -/
def notifyStepMiss (userId : String) (now : Nat)
    (acc : Svc × List String) (r : MedicationWithSchedule) :
    Svc × List String :=
  (scheduleAutoMarkNotTaken userId r
    { acc.1 with
      lastNotified := (reminderDedupKey r, now + 61) :: acc.1.lastNotified },
   acc.2 ++ [reminderDedupKey r])

lemma notifyStep_hit (userId : String) (now : Nat)
    (acc : Svc × List String) (r : MedicationWithSchedule)
    (hany : (acc.1.lastNotified.any
      (fun x => x.1 == reminderDedupKey r)) = true) :
    notifyStep userId now acc r = acc := by
  simp [notifyStep, hany]

lemma notifyStep_miss (userId : String) (now : Nat)
    (acc : Svc × List String) (r : MedicationWithSchedule)
    (hany : (acc.1.lastNotified.any
      (fun x => x.1 == reminderDedupKey r)) = false) :
    notifyStep userId now acc r = notifyStepMiss userId now acc r := by
  simp [notifyStep, notifyStepMiss, hany]

lemma notifyStepMiss_lastNotified (userId : String) (now : Nat)
    (acc : Svc × List String) (r : MedicationWithSchedule) :
    (notifyStepMiss userId now acc r).1.lastNotified =
      (reminderDedupKey r, now + 61) :: acc.1.lastNotified := rfl

lemma notifyStepMiss_fired (userId : String) (now : Nat)
    (acc : Svc × List String) (r : MedicationWithSchedule) :
    (notifyStepMiss userId now acc r).2 =
      acc.2 ++ [reminderDedupKey r] := rfl

lemma lastNotified_preserved_foldl (userId : String) (now : Nat)
    (due : List MedicationWithSchedule) (acc : Svc × List String)
    (k : String) (e : Nat) (hk : (k, e) ∈ acc.1.lastNotified) :
    (k, e) ∈ (due.foldl (notifyStep userId now) acc).1.lastNotified := by
  induction due generalizing acc with
  | nil => exact hk
  | cons r rest ih =>
    simp only [List.foldl_cons]
    rcases hany : acc.1.lastNotified.any
      (fun x => x.1 == reminderDedupKey r) with _ | _
    case true =>
      rw [notifyStep_hit userId now acc r hany]
      exact ih acc hk
    case false =>
      rw [notifyStep_miss userId now acc r hany]
      apply ih
      rw [notifyStepMiss_lastNotified]
      exact List.mem_cons_of_mem _ hk

lemma not_fired_foldl (userId : String) (now : Nat)
    (due : List MedicationWithSchedule) (acc : Svc × List String)
    (k : String) (e : Nat) (hk : (k, e) ∈ acc.1.lastNotified)
    (hnf : k ∉ acc.2) :
    k ∉ (due.foldl (notifyStep userId now) acc).2 := by
  induction due generalizing acc with
  | nil => exact hnf
  | cons r rest ih =>
    simp only [List.foldl_cons]
    rcases hany : acc.1.lastNotified.any
      (fun x => x.1 == reminderDedupKey r) with _ | _
    case false =>
      have hkey : reminderDedupKey r ≠ k := by
        intro heq
        have hforall : acc.1.lastNotified.any
            (fun x => x.1 == reminderDedupKey r) = true :=
          List.any_eq_true.mpr
            ⟨(k, e), hk, by rw [heq]; exact beq_self_eq_true k⟩
        rw [hany] at hforall
        exact Bool.false_ne_true hforall
      rw [notifyStep_miss userId now acc r hany]
      apply ih
      · rw [notifyStepMiss_lastNotified]
        exact List.mem_cons_of_mem _ hk
      · rw [notifyStepMiss_fired]
        intro hmem
        rcases List.mem_append.mp hmem with h | h
        · exact hnf h
        · exact hkey (List.mem_singleton.mp h).symm
    case true =>
      rw [notifyStep_hit userId now acc r hany]
      exact ih acc hk hnf

lemma fired_mem_lastNotified_foldl (userId : String) (now : Nat)
    (due : List MedicationWithSchedule) (acc : Svc × List String)
    (k : String)
    (hk : k ∈ (due.foldl (notifyStep userId now) acc).2) :
    k ∈ acc.2 ∨
    (k, now + 61) ∈
      (due.foldl (notifyStep userId now) acc).1.lastNotified := by
  induction due generalizing acc with
  | nil => exact Or.inl hk
  | cons r rest ih =>
    simp only [List.foldl_cons] at hk ⊢
    rcases hany : acc.1.lastNotified.any
      (fun x => x.1 == reminderDedupKey r) with _ | _
    case true =>
      rw [notifyStep_hit userId now acc r hany] at hk ⊢
      exact ih acc hk
    case false =>
      rw [notifyStep_miss userId now acc r hany] at hk ⊢
      rcases ih _ hk with h | h
      · rw [notifyStepMiss_fired] at h
        rcases List.mem_append.mp h with h2 | h2
        · exact Or.inl h2
        · rcases List.mem_singleton.mp h2 with rfl
          refine Or.inr (lastNotified_preserved_foldl _ _ _ _ _ _ ?_)
          rw [notifyStepMiss_lastNotified]
          exact List.mem_cons_self _ _
      · exact Or.inr h

lemma checkAndNotify_suppressed (userId : String) (inp : TickInput)
    (st : Svc) (k : String) (e : Nat) (hk : (k, e) ∈ st.lastNotified)
    (ht : inp.time < e) :
    k ∉ (checkAndNotifyReminders userId inp st).2 ∧
    (k, e) ∈ (checkAndNotifyReminders userId inp st).1.lastNotified := by
  have hmem0 : (k, e) ∈ expireNotified inp.time st.lastNotified :=
    List.mem_filter.mpr ⟨hk, by simpa using ht⟩
  unfold checkAndNotifyReminders
  constructor
  · exact not_fired_foldl userId inp.time _ _ k e hmem0
      (List.not_mem_nil k)
  · exact lastNotified_preserved_foldl userId inp.time _ _ k e hmem0

lemma checkAndNotify_fired (userId : String) (inp : TickInput)
    (st : Svc) (k : String)
    (hk : k ∈ (checkAndNotifyReminders userId inp st).2) :
    (k, inp.time + 61) ∈
      (checkAndNotifyReminders userId inp st).1.lastNotified := by
  unfold checkAndNotifyReminders at hk ⊢
  rcases fired_mem_lastNotified_foldl userId inp.time _ _ k hk with h | h
  · exact absurd h (List.not_mem_nil k)
  · exact h

lemma runNotify_times (userId : String) (inps : List TickInput) :
    ∀ st, (runNotify userId st inps).map Prod.fst =
      inps.map TickInput.time := by
  induction inps with
  | nil => intro st; rfl
  | cons inp rest ih =>
    intro st
    simp only [runNotify, List.map_cons, List.map]
    rw [ih]

lemma runNotify_persist (userId : String) (inps : List TickInput) :
    ∀ (st : Svc) (k : String) (e : Nat),
    (k, e) ∈ st.lastNotified →
    (inps.map TickInput.time).Pairwise (· ≤ ·) →
    ∀ p ∈ runNotify userId st inps, p.1 < e → k ∉ p.2 := by
  induction inps with
  | nil =>
    intro st k e _ _ p hp
    exact absurd hp (List.not_mem_nil p)
  | cons inp rest ih =>
    intro st k e hk hmono p hp ht
    simp only [runNotify] at hp
    simp only [List.map_cons, List.pairwise_cons] at hmono
    rcases List.mem_cons.mp hp with hhead | htail
    · rcases hhead with rfl
      exact (checkAndNotify_suppressed userId inp st k e hk ht).1
    · by_cases hlt : inp.time < e
      · have hsupp := checkAndNotify_suppressed userId inp st k e hk hlt
        exact ih _ k e hsupp.2 hmono.2 p htail ht
      · -- the head already reached the expiry; later calls are no
        -- earlier, contradicting that p is before the expiry
        exfalso
        have hp1 : p.1 ∈ (runNotify userId
            (checkAndNotifyReminders userId inp st).1 rest).map Prod.fst :=
          List.mem_map.mpr ⟨p, htail, rfl⟩
        rw [runNotify_times] at hp1
        have hle : inp.time ≤ p.1 := by
          obtain ⟨q, hq, hqe⟩ := List.mem_map.mp hp1
          rw [← hqe]
          exact hmono.1 q.time (List.mem_map.mpr ⟨q, hq, rfl⟩)
        exact hlt (lt_of_le_of_lt hle ht)

/-- C3: across any sequence of checkAndNotifyReminders invocations at
nondecreasing times, two invocations that both dispatch the same dedup
key (medication id plus reminder time-of-day) are at least 61 seconds
apart: within a 61-second window the key is announced at most once,
because the deletion timer only removes the key 61 seconds after it
was added. -/
theorem claim3_notify_at_most_once_per_window (userId : String)
    (st : Svc) (inps : List TickInput)
    (hmono : (inps.map TickInput.time).Pairwise (· ≤ ·))
    (i j : Nat) (hi : i < (runNotify userId st inps).length)
    (hj : j < (runNotify userId st inps).length) (hij : i < j)
    (k : String)
    (hki : k ∈ ((runNotify userId st inps).get ⟨i, hi⟩).2)
    (hkj : k ∈ ((runNotify userId st inps).get ⟨j, hj⟩).2) :
    ((runNotify userId st inps).get ⟨i, hi⟩).1 + 61 ≤
    ((runNotify userId st inps).get ⟨j, hj⟩).1 := by
  induction inps generalizing st i j with
  | nil => exact absurd hi (by simp [runNotify])
  | cons inp rest ih =>
    simp only [List.map_cons, List.pairwise_cons] at hmono
    rcases j with _ | j2
    · exact absurd hij (Nat.not_lt_zero i)
    · rcases i with _ | i2
      · -- the first dispatch is at the head call
        simp only [runNotify, List.get] at hki hkj ⊢
        have hentry := checkAndNotify_fired userId inp st k hki
        by_contra hcon
        push_neg at hcon
        have hjlen : j2 < (runNotify userId
            (checkAndNotifyReminders userId inp st).1 rest).length := by
          have := hj
          simp only [runNotify, List.length_cons] at this
          exact Nat.lt_of_succ_lt_succ this
        refine runNotify_persist userId rest _ k (inp.time + 61) hentry
          hmono.2 _ (List.get_mem _ j2 hjlen) hcon hkj
      · -- both dispatches are inside the tail
        simp only [runNotify, List.get] at hki hkj ⊢
        exact ih _ hmono.2 i2 j2 _ _ (Nat.lt_of_succ_lt_succ hij) hki hkj

/-- A tick input at the given time during which the sample schedule and
sample medication are due. -/
def sampleTick (time : Nat) : TickInput :=
  { time := time, sec := 0, ms := 0, currentTime := "08:00",
    fetchEnv := noFetchErrors, meds := [sampleMedRow],
    schedules := [sampleSchedule] }

/-- Witness for C3: the same reminder dispatched at time 0 and again at
time 61 (the first tick after the dedup entry expired) gives two
dispatches exactly 61 seconds apart. -/
theorem claim3_notify_at_most_once_per_window_witness :
    ((runNotify "u1" initSvc [sampleTick 0, sampleTick 61]).get
      ⟨0, by decide⟩).1 + 61 ≤
    ((runNotify "u1" initSvc [sampleTick 0, sampleTick 61]).get
      ⟨1, by decide⟩).1 :=
  claim3_notify_at_most_once_per_window "u1" initSvc
    [sampleTick 0, sampleTick 61] (by decide) 0 1 (by decide) (by decide)
    (by decide) "m1-08:00" (by decide) (by decide)

/-- Counterexample for C6 as stated: a second startReminderService call
made before the alignment timeout has fired (so reminderCheckInterval
is still null) is not a no-op — it runs another evaluation, another
escalation sweep, and creates a second alignment timeout (the first
one is leaked, its handle overwritten). -/
theorem claim6_counterexample :
    (startReminderService "u1" (sampleTick 0)
      (startReminderService "u1" (sampleTick 0) initSvc)).evalCount = 2 ∧
    (startReminderService "u1" (sampleTick 0)
      (startReminderService "u1" (sampleTick 0) initSvc)).sweepCount = 2 ∧
    (startReminderService "u1" (sampleTick 0)
      (startReminderService "u1" (sampleTick 0)
        initSvc)).pendingTimeouts.length = 2 := by
  decide

/-- C6 amended: startReminderService is a no-op exactly once
reminderCheckInterval has been set, that is, once the alignment
timeout has fired and created the recurring interval; a second call
made earlier re-evaluates and schedules an extra timeout (see the
counterexample). -/
theorem claim6_start_noop_once_interval_set (userId : String)
    (inp : TickInput) (st : Svc)
    (h : st.reminderCheckInterval.isSome = true) :
    startReminderService userId inp st = st := by
  simp [startReminderService, h]

/-- A concrete running state: started, then the alignment timeout
fired and installed the recurring interval. -/
def sampleRunningSvc : Svc :=
  fireAlignmentTimeout "u1" (sampleTick 60) 0
    (startReminderService "u1" (sampleTick 0) initSvc)

/-- Witness for the amended C6: starting again while the interval is
installed changes nothing. -/
theorem claim6_start_noop_once_interval_set_witness :
    startReminderService "u1" (sampleTick 120) sampleRunningSvc =
      sampleRunningSvc :=
  claim6_start_noop_once_interval_set "u1" (sampleTick 120)
    sampleRunningSvc (by decide)

lemma ref_none_nil {α : Type} (ref : Option α) (l : List α)
    (h : ∀ p ∈ l, ref = some p) (hn : ref = none) : l = [] := by
  cases l with
  | nil => rfl
  | cons a l2 =>
    have ha := h a (List.mem_cons_self a l2)
    rw [hn] at ha
    exact absurd ha (by simp)

lemma ref_some_filter {α : Type} [DecidableEq α] (ref : Option α)
    (l : List α) (t : α) (h : ∀ p ∈ l, ref = some p)
    (hs : ref = some t) : l.filter (fun q => q ≠ t) = [] := by
  refine List.filter_eq_nil_iff.mpr ?_
  intro q hq
  have hq2 := h q hq
  rw [hs] at hq2
  simp only [Option.some.injEq] at hq2
  simp [hq2]

lemma stop_fields (st : Svc) :
    (stopReminderService st).reminderCheckInterval = none ∧
    (stopReminderService st).nextCheckTimeout = none ∧
    (stopReminderService st).lastNotified = [] ∧
    (stopReminderService st).autoMarkTimeouts = [] := by
  unfold stopReminderService
  rcases hI : st.reminderCheckInterval with _ | itv <;>
    rcases hT : st.nextCheckTimeout with _ | t <;>
      simp [hI, hT]

lemma stop_idem (st : Svc) :
    stopReminderService (stopReminderService st) =
      stopReminderService st := by
  obtain ⟨h1, h2, h3, h4⟩ := stop_fields st
  revert h1 h2 h3 h4
  generalize stopReminderService st = r
  intro h1 h2 h3 h4
  unfold stopReminderService
  simp only [h1, h2]
  cases r
  simp_all

/-- Counterexample for the universal reading of C7: after a double
start in which the first alignment timeout was leaked (see the C6
counterexample), stopReminderService only cancels the timeout whose
handle is still referenced, so one pending timer survives the stop. -/
theorem claim7_counterexample :
    (stopReminderService (startReminderService "u1" (sampleTick 0)
      (startReminderService "u1" (sampleTick 0)
        initSvc))).pendingTimeouts ≠ [] := by
  decide

/-- C7 amended: stopReminderService is error-free and idempotent, and
nulls the interval and timeout references, empties the dedup set and
cancels every auto-mark timer unconditionally; provided every live
runtime timer is the one currently referenced (true in every run
without the double-start anomaly), it also leaves zero pending timers. -/
theorem claim7_stop_idempotent_and_clears (st : Svc)
    (hto : ∀ p ∈ st.pendingTimeouts, st.nextCheckTimeout = some p)
    (hiv : ∀ q ∈ st.pendingIntervals, st.reminderCheckInterval = some q) :
    stopReminderService (stopReminderService st) =
      stopReminderService st ∧
    (stopReminderService st).reminderCheckInterval = none ∧
    (stopReminderService st).nextCheckTimeout = none ∧
    (stopReminderService st).lastNotified = [] ∧
    (stopReminderService st).autoMarkTimeouts = [] ∧
    (stopReminderService st).pendingTimeouts = [] ∧
    (stopReminderService st).pendingIntervals = [] := by
  obtain ⟨h1, h2, h3, h4⟩ := stop_fields st
  refine ⟨stop_idem st, h1, h2, h3, h4, ?_, ?_⟩
  · rcases hT : st.nextCheckTimeout with _ | t
    · have hnil : st.pendingTimeouts = [] := ref_none_nil _ _ hto hT
      unfold stopReminderService
      rcases hI : st.reminderCheckInterval with _ | itv <;>
        simp [hI, hT, hnil]
    · unfold stopReminderService
      rcases hI : st.reminderCheckInterval with _ | itv <;>
        simp [hI, hT] <;>
          (intro a b hab
           have hx := hto (a, b) hab
           rw [hT] at hx
           exact (Option.some_inj.mp hx).symm)
  · rcases hI : st.reminderCheckInterval with _ | itv
    · have hnil : st.pendingIntervals = [] := ref_none_nil _ _ hiv hI
      unfold stopReminderService
      rcases hT : st.nextCheckTimeout with _ | t <;>
        simp [hI, hT, hnil]
    · unfold stopReminderService
      rcases hT : st.nextCheckTimeout with _ | t <;>
        simp [hI, hT] <;>
          (intro a b hab
           have hx := hiv (a, b) hab
           rw [hI] at hx
           exact (Option.some_inj.mp hx).symm)

/-- Witness for the amended C7 at the concrete running state. -/
theorem claim7_stop_idempotent_and_clears_witness :
    stopReminderService (stopReminderService sampleRunningSvc) =
      stopReminderService sampleRunningSvc ∧
    (stopReminderService sampleRunningSvc).reminderCheckInterval
      = none ∧
    (stopReminderService sampleRunningSvc).nextCheckTimeout = none ∧
    (stopReminderService sampleRunningSvc).lastNotified = [] ∧
    (stopReminderService sampleRunningSvc).autoMarkTimeouts = [] ∧
    (stopReminderService sampleRunningSvc).pendingTimeouts = [] ∧
    (stopReminderService sampleRunningSvc).pendingIntervals = [] :=
  claim7_stop_idempotent_and_clears sampleRunningSvc (by decide)
    (by decide)

/-- Counterexample for C8 as stated: starting at a minute boundary
(seconds = 0, milliseconds = 0) the scheduled delay is 0 ms, not the
60 seconds that the formula 60 - currentSeconds predicts, because the
source wraps the difference with mod 60 and also subtracts the
millisecond part. -/
theorem claim8_counterexample :
    (startReminderService "u1" (sampleTick 0) initSvc).nextCheckTimeout
      = some (0, 0) ∧ (60 - 0) * 1000 = 60000 ∧ (0 : Nat) ≠ 60000 := by
  decide

lemma notify_foldl_scaffold (userId : String) (now : Nat)
    (due : List MedicationWithSchedule) (acc : Svc × List String) :
    (due.foldl (notifyStep userId now) acc).1.evalCount
      = acc.1.evalCount ∧
    (due.foldl (notifyStep userId now) acc).1.sweepCount
      = acc.1.sweepCount ∧
    (due.foldl (notifyStep userId now) acc).1.nextId = acc.1.nextId ∧
    (due.foldl (notifyStep userId now) acc).1.pendingTimeouts
      = acc.1.pendingTimeouts ∧
    (due.foldl (notifyStep userId now) acc).1.pendingIntervals
      = acc.1.pendingIntervals ∧
    (due.foldl (notifyStep userId now) acc).1.reminderCheckInterval
      = acc.1.reminderCheckInterval ∧
    (due.foldl (notifyStep userId now) acc).1.nextCheckTimeout
      = acc.1.nextCheckTimeout ∧
    (due.foldl (notifyStep userId now) acc).1.db = acc.1.db := by
  induction due generalizing acc with
  | nil => exact ⟨rfl, rfl, rfl, rfl, rfl, rfl, rfl, rfl⟩
  | cons r rest ih =>
    simp only [List.foldl_cons]
    rcases hany : acc.1.lastNotified.any
      (fun x => x.1 == reminderDedupKey r) with _ | _
    case true =>
      rw [notifyStep_hit userId now acc r hany]
      exact ih acc
    case false =>
      rw [notifyStep_miss userId now acc r hany]
      exact ih (notifyStepMiss userId now acc r)

lemma check_scaffold (userId : String) (inp : TickInput) (st : Svc) :
    (checkAndNotifyReminders userId inp st).1.evalCount
      = st.evalCount + 1 ∧
    (checkAndNotifyReminders userId inp st).1.sweepCount
      = st.sweepCount ∧
    (checkAndNotifyReminders userId inp st).1.nextId = st.nextId ∧
    (checkAndNotifyReminders userId inp st).1.pendingTimeouts
      = st.pendingTimeouts ∧
    (checkAndNotifyReminders userId inp st).1.reminderCheckInterval
      = st.reminderCheckInterval := by
  unfold checkAndNotifyReminders
  obtain ⟨h1, h2, h3, h4, h5, h6, h7, h8⟩ := notify_foldl_scaffold userId
    inp.time (fetchDueReminders inp.fetchEnv inp.meds inp.schedules
      userId inp.currentTime)
    ({ st with
       lastNotified := expireNotified inp.time st.lastNotified,
       evalCount := st.evalCount + 1 }, [])
  exact ⟨h1, h2, h3, h4, h6⟩

/-- C8 amended: startReminderService runs one immediate evaluation and
schedules the alignment timeout with a delay of
max(0, ((60 - seconds) mod 60) * 1000 - milliseconds) ms. For
1 ≤ seconds ≤ 59 with milliseconds = 0 this equals the claimed
(60 - seconds) seconds, but at seconds = 0, milliseconds = 0 it is 0
rather than 60 seconds. When the alignment timeout fires, it installs
the recurring interval with a 60000 ms period. -/
theorem claim8_alignment_delay_and_interval (userId : String)
    (inp : TickInput) (st : Svc)
    (hrun : st.reminderCheckInterval = none) (hsec : inp.sec ≤ 59)
    (hfresh : ∀ p ∈ st.pendingTimeouts, p.1 ≠ st.nextId) :
    (startReminderService userId inp st).evalCount = st.evalCount + 1 ∧
    (startReminderService userId inp st).sweepCount = st.sweepCount + 1 ∧
    (startReminderService userId inp st).nextCheckTimeout =
      some (st.nextId, alignmentDelay inp.sec inp.ms) ∧
    (1 ≤ inp.sec → inp.ms = 0 →
      alignmentDelay inp.sec inp.ms = (60 - inp.sec) * 1000) ∧
    (inp.sec = 0 → inp.ms = 0 → alignmentDelay inp.sec inp.ms = 0) ∧
    (fireAlignmentTimeout userId inp st.nextId
        (startReminderService userId inp st)).reminderCheckInterval =
      some ((startReminderService userId inp st).nextId, 60000) := by
  have hnotsome : st.reminderCheckInterval.isSome = true → False := by
    rw [hrun]; simp
  obtain ⟨c1, c2, c3, c4, c5⟩ := check_scaffold userId inp st
  constructor
  · simp only [startReminderService, checkMissedMedications]
    rw [if_neg hnotsome]
    exact c1
  constructor
  · simp only [startReminderService, checkMissedMedications]
    rw [if_neg hnotsome]
    exact congrArg (fun x => x + 1) c2
  constructor
  · simp only [startReminderService, checkMissedMedications]
    rw [if_neg hnotsome]
    simp only [c3]
  constructor
  · intro h1 h0
    unfold alignmentDelay
    omega
  constructor
  · intro h1 h0
    rw [h1, h0]
    decide
  · -- the fired alignment timeout installs the 60000 ms interval
    have hpend : (startReminderService userId inp st).pendingTimeouts =
        st.pendingTimeouts ++
          [(st.nextId, alignmentDelay inp.sec inp.ms)] := by
      simp only [startReminderService, checkMissedMedications]
      rw [if_neg hnotsome]
      simp only [c4, c3]
    have hfind : (startReminderService userId inp
        st).pendingTimeouts.find? (fun p => p.1 == st.nextId) =
        some (st.nextId, alignmentDelay inp.sec inp.ms) := by
      rw [hpend, List.find?_append]
      have hnone : st.pendingTimeouts.find? (fun p => p.1 == st.nextId)
          = none := by
        refine List.find?_eq_none.mpr ?_
        intro p hp
        simpa using hfresh p hp
      rw [hnone]
      simp
    unfold fireAlignmentTimeout
    rw [hfind]
    have hnid := (check_scaffold userId inp
      { startReminderService userId inp st with
        pendingTimeouts := (startReminderService userId inp
          st).pendingTimeouts.filter
            (fun q => q.1 ≠ st.nextId) }).2.2.1
    simp only [hnid]

/-- A tick input read at 30 seconds past the minute. -/
def sampleTickHalf : TickInput :=
  { time := 0, sec := 30, ms := 0, currentTime := "08:00",
    fetchEnv := noFetchErrors, meds := [sampleMedRow],
    schedules := [sampleSchedule] }

/-- Witness for the amended C8 at a concrete start 30 seconds into the
minute: delay 30000 ms, then a 60000 ms interval. -/
theorem claim8_alignment_delay_and_interval_witness :
    (startReminderService "u1" sampleTickHalf initSvc).evalCount
      = initSvc.evalCount + 1 ∧
    (startReminderService "u1" sampleTickHalf initSvc).sweepCount
      = initSvc.sweepCount + 1 ∧
    (startReminderService "u1" sampleTickHalf initSvc).nextCheckTimeout
      = some (initSvc.nextId, alignmentDelay sampleTickHalf.sec
          sampleTickHalf.ms) ∧
    (1 ≤ sampleTickHalf.sec → sampleTickHalf.ms = 0 →
      alignmentDelay sampleTickHalf.sec sampleTickHalf.ms =
        (60 - sampleTickHalf.sec) * 1000) ∧
    (sampleTickHalf.sec = 0 → sampleTickHalf.ms = 0 →
      alignmentDelay sampleTickHalf.sec sampleTickHalf.ms = 0) ∧
    (fireAlignmentTimeout "u1" sampleTickHalf initSvc.nextId
        (startReminderService "u1" sampleTickHalf
          initSvc)).reminderCheckInterval =
      some ((startReminderService "u1" sampleTickHalf initSvc).nextId,
        60000) :=
  claim8_alignment_delay_and_interval "u1" sampleTickHalf initSvc
    (by decide) (by decide) (by decide)

example : getScheduledDateTime "2026-01-05" "08:00" = "2026-01-05T08:00" := by
  decide

example :
    (recordAdherenceStatus
      { today := "2026-01-05", now := "2026-01-05T08:02:00Z",
        readError := false, writeError := false, newId := 7 }
      "u1" "m1" "08:00" AdherenceStatus.taken false initSvc).db =
    [{ id := 7, medication_id := "m1", user_id := "u1",
       scheduled_time := "2026-01-05T08:00",
       status := AdherenceStatus.taken,
       taken_at := some "2026-01-05T08:02:00Z" }] := by
  decide
